import Mathlib

/-!
Verification of the record-synchronization and field-name-resolution layer of
`scred` (`scred/project.py`), shallowly embedded in Lean 4.

Python dicts with string keys are modelled as association lists with distinct
keys, in insertion order: `dictGet` is `d[k]` (as an `Option`, `none` modelling
a `KeyError`), `dictSet` is `d[k] = v` (replace the value of an existing key in
place, append a new key at the end — CPython insertion-order semantics).

The remote collaborators (`webapi.RedcapRequester`, `dtypes.Record`,
`dtypes.DataDictionary`, and the `requests` library) are not part of the
embedded source; where their behaviour matters it is modelled from the spec
(section 6 of spec.md) and marked `Modelled from the spec:` in the relevant
doc comment.
-/

/-- Python `d[k]`, as an `Option` (`none` models a `KeyError`). -/
def dictGet {β : Type} : List (String × β) → String → Option β
  | [], _ => Option.none
  | (k', v) :: rest, k => if k' = k then Option.some v else dictGet rest k

/-- Python `d[k] = v`: replace the value at an existing key in place, append a
new key at the end (CPython insertion-order behaviour). -/
def dictSet {β : Type} : List (String × β) → String → β → List (String × β)
  | [], k, v => [(k, v)]
  | (k', v') :: rest, k, v =>
    if k' = k then (k, v) :: rest else (k', v') :: dictSet rest k v

/-- One row of the REDCap export-field-names response, with the keys read by
the `efn` setter (`d["original_field_name"]`, `d["choice_value"]`,
`d["export_field_name"]`, project.py lines 79-98). -/
structure FieldDescriptor where
  original_field_name : String
  choice_value : String
  export_field_name : String
deriving DecidableEq

/-- The body of the `efn` setter (project.py lines 86-98): keep the descriptors
whose `original_field_name` differs from `export_field_name`; for each distinct
such name, map it to the list of its `export_field_name` values in input order.
The Python loop `for nm in set(names)` iterates in unspecified hash order, but
each key is written exactly once, so the resulting dict does not depend on that
order; we enumerate the distinct names with `List.dedup`. -/
def efnBuild (value : List FieldDescriptor) : List (String × List String) :=
  let differing := value.filter fun d => d.original_field_name ≠ d.export_field_name
  let names := differing.map fun d => d.original_field_name
  names.dedup.map fun nm =>
    (nm, (differing.filter fun d => d.original_field_name = nm).map
      fun d => d.export_field_name)

/-- Modelled from the spec: the remote requester (`webapi.RedcapRequester`, a
collaborator that is not under `src/`).  Per spec section 6 it exposes
`get_metadata`, `get_export_fieldnames` and `get_version`; `M` is the opaque
payload type of `get_metadata`. -/
structure Requester (M : Type) where
  get_metadata : M
  get_export_fieldnames : List FieldDescriptor
  get_version : String

/-- Modelled from the spec: `dtypes.DataDictionary` is an external value
container (spec section 1); the `metadata` getter wraps the raw payload in
one (`DataDictionary(self.requester.get_metadata())`). -/
structure DataDictionary (M : Type) where
  raw : M
deriving DecidableEq

/-- The Python exceptions surfacing in the embedded fragment.
`attributeError` models reading a never-assigned instance attribute;
`keyError` a failed dict lookup (`self.efn[cbvar]` in `cbnames`);
`dataShapeError` is the spec's name (section 7) for the `AssertionError`
raised by `assert isinstance(checked, int)` in `any_endorsed`. -/
inductive PyError where
  | attributeError
  | keyError
  | dataShapeError
deriving DecidableEq

/-- The instance state of a `RedcapProject`.  Each cached slot is
`Option (Option _)`: the outer `none` means the attribute was never assigned
(reading it raises `AttributeError`), `some none` models the attribute holding
Python `None` (the sentinel the getters test with `is None`), and
`some (some x)` an actual cached value. -/
structure RedcapProjectState (M : Type) where
  requester : Requester M
  _metadata : Option (Option (DataDictionary M))
  _version : Option (Option String)
  _efn : Option (Option (List (String × List String)))

/-- `RedcapProject.__init__` (project.py lines 28-42): builds the requester
(taken here as the `req` argument, since `webapi` is an external collaborator)
and then merely *annotates* `self._metadata`, `self._version` and `self._efn`
(`self._metadata: DataDictionary` etc.) — a bare annotation assigns nothing, so
all three attributes are left unset.  The `metadata` parameter is accepted but
never used by the constructor body. -/
def RedcapProject.init (M : Type) (url token : String)
    (metadata : Option (DataDictionary M)) (req : Requester M) :
    RedcapProjectState M :=
  { requester := req
    _metadata := Option.none
    _version := Option.none
    _efn := Option.none }

/-- The `metadata` property getter (project.py lines 52-60): reading
`self._metadata` raises `AttributeError` when the attribute was never
assigned; when it holds `None` the data dictionary is fetched, cached and
returned; otherwise the cached instance is returned.  The (possibly updated)
instance state is returned alongside the value. -/
def RedcapProject.metadataGet {M : Type} (s : RedcapProjectState M) :
    Except PyError (DataDictionary M × RedcapProjectState M) :=
  match s._metadata with
  | Option.none => Except.error PyError.attributeError
  | Option.some Option.none =>
    let md : DataDictionary M := ⟨s.requester.get_metadata⟩
    Except.ok (md, { s with _metadata := Option.some (Option.some md) })
  | Option.some (Option.some md) => Except.ok (md, s)

/-- The `metadata` setter (project.py lines 62-66): stores the value (or the
`None` sentinel) directly. -/
def RedcapProject.metadataSet {M : Type} (s : RedcapProjectState M)
    (value : Option (DataDictionary M)) : RedcapProjectState M :=
  { s with _metadata := Option.some value }

/-- The `version` property getter (project.py lines 100-104); same
lazy-with-sentinel shape as `metadata`. -/
def RedcapProject.versionGet {M : Type} (s : RedcapProjectState M) :
    Except PyError (String × RedcapProjectState M) :=
  match s._version with
  | Option.none => Except.error PyError.attributeError
  | Option.some Option.none =>
    let v := s.requester.get_version
    Except.ok (v, { s with _version := Option.some (Option.some v) })
  | Option.some (Option.some v) => Except.ok (v, s)

/-- The `efn` setter (project.py lines 78-98) as a state update: builds the
checkbox-to-export-names map from the descriptor list and stores it. -/
def RedcapProject.efnSet {M : Type} (s : RedcapProjectState M)
    (value : List FieldDescriptor) : RedcapProjectState M :=
  { s with _efn := Option.some (Option.some (efnBuild value)) }

/-- The `efn` property getter (project.py lines 68-76): `AttributeError` when
unset; when the attribute holds `None`, it assigns through the setter
(`self.efn = self.requester.get_export_fieldnames()`) and returns the freshly
built map; otherwise returns the cached map. -/
def RedcapProject.efnGet {M : Type} (s : RedcapProjectState M) :
    Except PyError (List (String × List String) × RedcapProjectState M) :=
  match s._efn with
  | Option.none => Except.error PyError.attributeError
  | Option.some Option.none =>
    let s' := RedcapProject.efnSet s s.requester.get_export_fieldnames
    Except.ok (efnBuild s.requester.get_export_fieldnames, s')
  | Option.some (Option.some m) => Except.ok (m, s)

/-- A REDCap record value as seen by `any_endorsed`: an integer flag, a
string, or Python `None`. -/
inductive RCValue where
  | intVal (n : Int)
  | strVal (s : String)
  | noneVal
deriving DecidableEq

/-- Python truthiness of an `RCValue` (the `if checked:` test). -/
def RCValue.truthy : RCValue → Bool
  | .intVal n => n ≠ 0
  | .strVal s => s ≠ ""
  | .noneVal => false

/-- `isinstance(checked, int)`. -/
def RCValue.isInt : RCValue → Bool
  | .intVal _ => true
  | _ => false

/-- Modelled from the spec: a `dtypes.Record` (a value container not under
`src/`) is a key-value row; per spec section 4.1 `rcvalue` "read[s] the
record's value at that export name".  A missing key reads as Python `None`. -/
abbrev PyRecord : Type := List (String × RCValue)

/-- Modelled from the spec: `Record.rcvalue`, the per-field read used by
`any_endorsed`. -/
def PyRecord.rcvalue (r : PyRecord) (var : String) : RCValue :=
  (dictGet r var).getD RCValue.noneVal

/-- The loop of `any_endorsed` (project.py lines 134-139): scan the export
names in order; at the first truthy value return `True` if it is an `int`,
otherwise the `assert isinstance(checked, int)` fails (the spec's
`DataShapeError`); if no value is truthy, return `False`. -/
def anyEndorsedLoop (record : PyRecord) : List String → Except PyError Bool
  | [] => Except.ok false
  | var :: rest =>
    let checked := record.rcvalue var
    if checked.truthy then
      if checked.isInt then Except.ok true
      else Except.error PyError.dataShapeError
    else anyEndorsedLoop record rest

/-- `cbnames` (project.py lines 116-126): `self.efn[cbvar]` — goes through the
lazy `efn` property and raises `KeyError` when the name has no entry. -/
def RedcapProject.cbnames {M : Type} (s : RedcapProjectState M) (cbvar : String) :
    Except PyError (List String × RedcapProjectState M) :=
  match RedcapProject.efnGet s with
  | Except.error e => Except.error e
  | Except.ok (m, s') =>
    match dictGet m cbvar with
    | Option.none => Except.error PyError.keyError
    | Option.some exports => Except.ok (exports, s')

/-- `any_endorsed` (project.py lines 128-139). -/
def RedcapProject.any_endorsed {M : Type} (s : RedcapProjectState M)
    (record : PyRecord) (checkbox : String) :
    Except PyError (Bool × RedcapProjectState M) :=
  match RedcapProject.cbnames s checkbox with
  | Except.error e => Except.error e
  | Except.ok (exports, s') =>
    match anyEndorsedLoop record exports with
    | Except.error e => Except.error e
    | Except.ok b => Except.ok (b, s')

/-- Specification-side helper: the value at the first endorsed (truthy)
export name of the list, if any. -/
def firstEndorsed (record : PyRecord) (exports : List String) : Option RCValue :=
  (exports.map record.rcvalue).find? RCValue.truthy

/-- An argument to `get_records` that may be Python `None`, a bare string, or
a list of strings. -/
inductive PyStrOrList where
  | pyNone
  | pyStr (s : String)
  | pyList (xs : List String)
deriving DecidableEq

/-- Python truthiness of such an argument. -/
def PyStrOrList.truthy : PyStrOrList → Bool
  | .pyNone => false
  | .pyStr s => s ≠ ""
  | .pyList xs => !xs.isEmpty

/-- `isinstance(x, str)`. -/
def PyStrOrList.isStr : PyStrOrList → Bool
  | .pyStr _ => true
  | _ => false

/-- Python `",".join(x)` — in `get_records` this is only ever evaluated on the
truthy non-string (list) case. -/
def PyStrOrList.commaJoin : PyStrOrList → String
  | .pyList xs => String.intercalate "," xs
  | .pyStr s => s
  | .pyNone => ""

/-- The payload dict built by `get_records` (project.py lines 157-162): start
from `{"content": "record"}` and add a `records` / `fields` entry only when
the corresponding argument is truthy *and not a bare string*
(`if records and not isinstance(records, str)`).  The `**kwargs` extras are
forwarded to `post` unchanged alongside this dict and are not modelled. -/
def RedcapProject.get_records_payload (records fields : PyStrOrList) :
    List (String × String) :=
  let payload := [("content", "record")]
  let payload :=
    if records.truthy && !records.isStr then
      dictSet payload "records" records.commaJoin
    else payload
  if fields.truthy && !fields.isStr then
    dictSet payload "fields" fields.commaJoin
  else payload

/-- Values of the downloader's `static_payload` dict: either the literal
`"record"` stored under `"content"`, or a sanitized caller parameter of
type `V`. -/
inductive PayloadVal (V : Type) where
  | contentRecord
  | val (v : V)
deriving DecidableEq

/-- The loop `for p, v in params.items(): params[p] = requester.sanitize_param(v)`
(project.py lines 196-197): iterate over the dict's items, replacing each value
in the *same* dict.  Only the value at the key currently being visited is
mutated, so the iterator still sees every original pair. -/
def sanitizeItems {V : Type} (san : V → V) (params : List (String × V)) :
    List (String × V) :=
  params.foldl (fun dict pv => dictSet dict pv.1 (san pv.2)) params

/-- The observable result of `RecordsDownloader.__init__` (project.py lines
191-198).  `params_after` is the caller's own `params` dict after construction:
the sanitizing loop mutates it in place (no copy is taken), so the caller
observes the sanitized values.  `none` corresponds to passing `params=None`. -/
structure RecordsDownloaderInit (V : Type) where
  chunksize : Int
  static_payload : List (String × PayloadVal V)
  params_after : Option (List (String × V))

/-- `RecordsDownloader.__init__`: stores `chunksize` without any validation,
sanitizes `params` in place, and builds
`static_payload = {"content": "record", **params}` (a dict literal followed by
the params merged in, later keys overriding). -/
def RecordsDownloader.init {V : Type} (san : V → V) (chunksize : Int)
    (params : Option (List (String × V))) : RecordsDownloaderInit V :=
  match params with
  | Option.none =>
    { chunksize := chunksize
      static_payload := [("content", PayloadVal.contentRecord)]
      params_after := Option.none }
  | Option.some ps =>
    let ps' := sanitizeItems san ps
    { chunksize := chunksize
      static_payload :=
        ps'.foldl (fun d pv => dictSet d pv.1 (PayloadVal.val pv.2))
          [("content", PayloadVal.contentRecord)]
      params_after := Option.some ps' }

/-- Python `l[:k]` for an `int` `k`: for `k ≥ 0` the first `min(k, len)`
elements; for `k < 0` the first `max(len + k, 0)` elements (negative indices
count from the end; `Nat` subtraction clamps at zero). -/
def pySliceTake {α : Type} (k : Int) (l : List α) : List α :=
  if 0 ≤ k then l.take k.toNat else l.take (l.length - (-k).toNat)

/-- The list remaining after Python `del l[:k]` (the complement suffix of
`l[:k]`). -/
def pySliceDel {α : Type} (k : Int) (l : List α) : List α :=
  if 0 ≤ k then l.drop k.toNat else l.drop (l.length - (-k).toNat)

/-- `RecordsDownloader._iter_records` (project.py lines 200-209), fuel-indexed:
`chunk = deepcopy(records)` (a private copy, modelled by purity), then
`while len(chunk) >= self.chunksize: yield chunk[:chunksize]; del chunk[:chunksize]`,
then a final unconditional `yield chunk`.  The result is the list of yielded
batches; `none` means the loop has not finished within `fuel` iterations (the
generator, run that long, has not terminated). -/
def iterRecordsAux (k : Int) (chunk : List String) : Nat → Option (List (List String))
  | 0 => Option.none
  | fuel + 1 =>
    if k ≤ (chunk.length : Int) then
      match iterRecordsAux k (pySliceDel k chunk) fuel with
      | Option.none => Option.none
      | Option.some rest => Option.some (pySliceTake k chunk :: rest)
    else Option.some [chunk]

/-- `_iter_records` with enough fuel for any positive chunk size
(`length + 1` iterations always suffice when `chunksize ≥ 1`). -/
def iter_records (k : Int) (records : List String) : Option (List (List String)) :=
  iterRecordsAux k records (records.length + 1)

/-- Specification-side partition: consecutive slices of length `k` while at
least `k` elements remain, then the final remainder (possibly empty) as one
last batch.  Total for `k ≥ 1`. -/
def chunksNat {α : Type} (k : Nat) (l : List α) : List (List α) :=
  if h : 1 ≤ k ∧ k ≤ l.length then l.take k :: chunksNat k (l.drop k)
  else [l]
termination_by l.length
decreasing_by
  simp only [List.length_drop]
  omega

/-- Transport-level exceptions at the `fetch_records` call site.
Modelled from the spec and the `requests` library: `httpError` is
`requests.HTTPError` (the requester raises it on a non-2xx response, spec
section 6); `jsonDecodeError` is the exception `response.json()` raises on a
malformed body (`requests.exceptions.JSONDecodeError`, which is *not* a
subclass of `HTTPError`). -/
inductive FetchError where
  | httpError
  | jsonDecodeError
deriving DecidableEq

/-- What one run of the `fetch_records` generator (project.py lines 211-228)
produces: the payloads yielded to the caller, the final contents of the local
`to_retry` list, the exception that escaped the generator (if any), and the
generator's return value.  The function body has no `return` statement, so the
`StopIteration` value delivered to the caller on completion is always `None` —
`returned` is therefore `none` on every path. -/
structure FetchResult (P : Type) where
  yielded : List P
  to_retry : List (List String)
  raised : Option FetchError
  returned : Option (List (List String))
deriving DecidableEq

/-- The loop of `fetch_records`, over an explicit batch list:
`try: yield self.requester.post(self.static_payload, records=records).json()`
`except requests.HTTPError: to_retry.append(records)`.
`post` abstracts `requester.post(...).json()` for one batch: `ok` a parsed
payload, `error httpError` a non-2xx response, `error jsonDecodeError` a
malformed body.  Only `HTTPError` is caught; a `jsonDecodeError` escapes,
ending the generator with the exception raised and the remaining batches
undispatched. -/
def fetchLoop {P : Type} (post : List String → Except FetchError P) :
    List (List String) → FetchResult P
  | [] =>
    { yielded := [], to_retry := [], raised := Option.none, returned := Option.none }
  | b :: rest =>
    match post b with
    | Except.ok p =>
      let r := fetchLoop post rest
      { r with yielded := p :: r.yielded }
    | Except.error FetchError.httpError =>
      let r := fetchLoop post rest
      { r with to_retry := b :: r.to_retry }
    | Except.error FetchError.jsonDecodeError =>
      { yielded := [], to_retry := [],
        raised := Option.some FetchError.jsonDecodeError, returned := Option.none }

/-- `fetch_records` (project.py lines 211-228): run the fetch loop over the
batches produced by `self._iter_records(chunk)`. -/
def fetch_records {P : Type} (post : List String → Except FetchError P)
    (k : Int) (chunk : List String) : Option (FetchResult P) :=
  (iter_records k chunk).map (fetchLoop post)

/-- Whether a batch's post-and-parse attempt failed. -/
def postFailed {P : Type} : Except FetchError P → Bool
  | Except.ok _ => false
  | Except.error _ => true

/-- A concrete post function: the batch `["C"]` receives a non-2xx response
(`HTTPError`); every other batch succeeds with payload `"pAB"`. -/
def postHttpFailC : List String → Except FetchError String :=
  fun b => if b = ["C"] then Except.error FetchError.httpError else Except.ok "pAB"

/-- A concrete post function: the batch `["C", "D"]` returns a body that fails
JSON parsing; every other batch succeeds with payload `"payload"`. -/
def postJsonFailCD : List String → Except FetchError String :=
  fun b =>
    if b = ["C", "D"] then Except.error FetchError.jsonDecodeError
    else Except.ok "payload"

/-- A concrete post function for witnesses: batch `["E"]` receives a non-2xx
response; other batches succeed with their length as payload. -/
def postLenFailE : List String → Except FetchError Nat :=
  fun b => if b = ["E"] then Except.error FetchError.httpError else Except.ok b.length

/-- A concrete requester used for example states. -/
def exampleRequester : Requester Nat :=
  { get_metadata := 0, get_export_fieldnames := [], get_version := "v1" }

/-- A freshly-constructed example project state. -/
def exampleState : RedcapProjectState Nat :=
  RedcapProject.init Nat "url" "token" Option.none exampleRequester

/-- The export-field map of the claims' checkbox example. -/
def cbEfnMap : List (String × List String) :=
  [("checkbox_field", ["checkbox_field___1", "checkbox_field___2"])]

/-- A project state whose `_efn` attribute holds the checkbox example map. -/
def cbState : RedcapProjectState Nat :=
  { requester := exampleRequester
    _metadata := Option.none
    _version := Option.none
    _efn := Option.some (Option.some cbEfnMap) }

/-- The claims' example record: `checkbox_field___1` is `0`,
`checkbox_field___2` is `1`. -/
def cbRecord : PyRecord :=
  [("checkbox_field___1", RCValue.intVal 0), ("checkbox_field___2", RCValue.intVal 1)]

/-- A descriptor list whose only field has `original_field_name` equal to
`export_field_name`. -/
def plainDescs : List FieldDescriptor :=
  [⟨"plain_field", "", "plain_field"⟩]

/-! ### Helper lemmas -/

theorem dictGet_map_self {β : Type} (l : List String) (g : String → β) (nm : String) :
    dictGet (l.map fun x => (x, g x)) nm =
      if nm ∈ l then Option.some (g nm) else Option.none := by
  induction l with
  | nil => simp [dictGet]
  | cons x xs ih =>
    simp only [List.map_cons, dictGet, List.mem_cons]
    by_cases hx : x = nm
    · subst hx; simp
    · simp [hx, ih, Ne.symm hx]

theorem dictSet_head {β : Type} (p : String) (v x : β) (rest : List (String × β)) :
    dictSet ((p, v) :: rest) p x = (p, x) :: rest := by
  simp [dictSet]

theorem dictSet_append_of_not_mem {β : Type} (a b : List (String × β)) (p : String)
    (x : β) (hp : p ∉ a.map Prod.fst) :
    dictSet (a ++ b) p x = a ++ dictSet b p x := by
  induction a with
  | nil => simp
  | cons q qs ih =>
    simp only [List.map_cons, List.mem_cons] at hp
    push_neg at hp
    obtain ⟨qk, qv⟩ := q
    simp only [List.cons_append, dictSet, List.append_eq]
    rw [if_neg (Ne.symm hp.1), ih hp.2]

theorem foldl_sanitize {V : Type} (san : V → V) :
    ∀ (l pre : List (String × V)),
      ((pre ++ l).map Prod.fst).Nodup →
      l.foldl (fun dict pv => dictSet dict pv.1 (san pv.2))
        (pre.map (fun pv => (pv.1, san pv.2)) ++ l) =
      (pre ++ l).map fun pv => (pv.1, san pv.2) := by
  intro l
  induction l with
  | nil => intro pre h; simp
  | cons pv rest ih =>
    intro pre h
    obtain ⟨p, v⟩ := pv
    have hp : p ∉ pre.map Prod.fst := by
      rw [List.map_append, List.nodup_append] at h
      exact fun hmem => h.2.2 hmem (by simp)
    simp only [List.foldl_cons]
    rw [dictSet_append_of_not_mem _ _ _ _ (by simpa [List.map_map] using hp),
      dictSet_head]
    have hres := ih (pre ++ [(p, v)]) (by simpa using h)
    simpa [List.append_assoc] using hres

theorem sanitizeItems_eq_map {V : Type} (san : V → V) (params : List (String × V))
    (h : (params.map Prod.fst).Nodup) :
    sanitizeItems san params = params.map fun pv => (pv.1, san pv.2) := by
  have hres := foldl_sanitize san params [] (by simpa using h)
  simpa [sanitizeItems] using hres

theorem chunksNat_ne_nil {α : Type} (k : Nat) (l : List α) : chunksNat k l ≠ [] := by
  rw [chunksNat]
  split <;> simp

/-- Structure of the spec-side partition, everything at once: it is a
(possibly empty) run of full `k`-batches followed by one final batch holding
the remainder. -/
theorem chunksNat_spec {α : Type} (k : Nat) (hk : 1 ≤ k) :
    ∀ (n : Nat) (l : List α), l.length ≤ n →
      ∃ front lastb, chunksNat k l = front ++ [lastb] ∧
        front.length = l.length / k ∧
        (∀ b ∈ front, b.length = k) ∧
        lastb.length = l.length % k ∧
        l = front.flatten ++ lastb := by
  intro n
  induction n with
  | zero =>
    intro l hl
    have hnil : l = [] := List.eq_nil_of_length_eq_zero (Nat.le_zero.mp hl)
    subst hnil
    refine ⟨[], [], ?_, by simp, by simp, by simp, by simp⟩
    rw [chunksNat, dif_neg (by intro hcon; simp at hcon; omega)]
    simp
  | succ n ih =>
    intro l hl
    rw [chunksNat]
    by_cases hg : 1 ≤ k ∧ k ≤ l.length
    · obtain ⟨front, lastb, heq, hflen, hall, hlast, hjoin⟩ :=
        ih (l.drop k) (by simp only [List.length_drop]; omega)
      refine ⟨l.take k :: front, lastb, ?_, ?_, ?_, ?_, ?_⟩
      · rw [dif_pos hg, heq]
        simp
      · simp only [List.length_cons, hflen, List.length_drop]
        rw [Nat.div_eq_sub_div (by omega) hg.2]
      · intro b hb
        rcases List.mem_cons.mp hb with hb | hb
        · subst hb
          simp only [List.length_take]
          omega
        · exact hall b hb
      · rw [hlast, List.length_drop, Nat.mod_eq_sub_mod hg.2]
      · conv_lhs => rw [← List.take_append_drop k l]
        rw [hjoin]
        simp
    · refine ⟨[], l, ?_, ?_, by simp, ?_, by simp⟩
      · rw [dif_neg hg]
        simp
      · simp only [List.length_nil]
        rw [Nat.div_eq_of_lt (by omega)]
      · rw [Nat.mod_eq_of_lt (by omega)]

/-- Bridge: for a positive chunk size, the fuel-indexed embedding of
`_iter_records` terminates with exactly the spec-side partition whenever the
fuel exceeds the length of the input. -/
theorem iterRecordsAux_eq_chunksNat (k : Int) (hk : 1 ≤ k) :
    ∀ (fuel : Nat) (c : List String), c.length < fuel →
      iterRecordsAux k c fuel = Option.some (chunksNat k.toNat c) := by
  intro fuel
  induction fuel with
  | zero => intro c hc; exact absurd hc (Nat.not_lt_zero _)
  | succ fuel ih =>
    intro c hc
    simp only [iterRecordsAux]
    by_cases hg : k ≤ (c.length : Int)
    · have hkn : k.toNat ≤ c.length := by omega
      have hdel : pySliceDel k c = c.drop k.toNat := by
        rw [pySliceDel, if_pos (by omega)]
      have htake : pySliceTake k c = c.take k.toNat := by
        rw [pySliceTake, if_pos (by omega)]
      rw [if_pos hg, hdel,
        ih (c.drop k.toNat) (by simp only [List.length_drop]; omega), htake]
      conv_rhs => rw [chunksNat]
      rw [dif_pos ⟨by omega, hkn⟩]
    · rw [if_neg hg]
      conv_rhs => rw [chunksNat]
      rw [dif_neg (by intro hcon; omega)]

/-- For a non-positive chunk size the loop guard `len(chunk) >= chunksize`
always holds, so the `_iter_records` loop never terminates: no amount of fuel
produces a result. -/
theorem iterRecordsAux_none_of_nonpos (k : Int) (hk : k ≤ 0) :
    ∀ (fuel : Nat) (c : List String), iterRecordsAux k c fuel = Option.none := by
  intro fuel
  induction fuel with
  | zero => intro c; rfl
  | succ fuel ih =>
    intro c
    simp only [iterRecordsAux]
    rw [if_pos (by omega : k ≤ (c.length : Int)), ih (pySliceDel k c)]

theorem fetchLoop_returned {P : Type} (post : List String → Except FetchError P)
    (bs : List (List String)) : (fetchLoop post bs).returned = Option.none := by
  induction bs with
  | nil => rfl
  | cons b rest ih =>
    cases hpb : post b with
    | ok p => simp [fetchLoop, hpb, ih]
    | error e => cases e <;> simp [fetchLoop, hpb, ih]

theorem fetchLoop_raised {P : Type} (post : List String → Except FetchError P)
    (bs : List (List String))
    (hjson : ∀ b ∈ bs, post b ≠ Except.error FetchError.jsonDecodeError) :
    (fetchLoop post bs).raised = Option.none := by
  induction bs with
  | nil => rfl
  | cons b rest ih =>
    have hrest : ∀ b ∈ rest, post b ≠ Except.error FetchError.jsonDecodeError :=
      fun b hb => hjson b (List.mem_cons_of_mem _ hb)
    cases hpb : post b with
    | ok p => simp [fetchLoop, hpb, ih hrest]
    | error e =>
      cases e with
      | httpError => simp [fetchLoop, hpb, ih hrest]
      | jsonDecodeError => exact absurd hpb (hjson b (List.mem_cons_self _ _))

theorem fetchLoop_to_retry {P : Type} (post : List String → Except FetchError P)
    (bs : List (List String))
    (hjson : ∀ b ∈ bs, post b ≠ Except.error FetchError.jsonDecodeError) :
    (fetchLoop post bs).to_retry = bs.filter fun b => postFailed (post b) := by
  induction bs with
  | nil => rfl
  | cons b rest ih =>
    have hrest : ∀ b ∈ rest, post b ≠ Except.error FetchError.jsonDecodeError :=
      fun b hb => hjson b (List.mem_cons_of_mem _ hb)
    cases hpb : post b with
    | ok p => simp [fetchLoop, hpb, ih hrest, List.filter_cons, postFailed]
    | error e =>
      cases e with
      | httpError => simp [fetchLoop, hpb, ih hrest, List.filter_cons, postFailed]
      | jsonDecodeError => exact absurd hpb (hjson b (List.mem_cons_self _ _))

theorem fetchLoop_yielded {P : Type} (post : List String → Except FetchError P)
    (bs : List (List String))
    (hjson : ∀ b ∈ bs, post b ≠ Except.error FetchError.jsonDecodeError) :
    (fetchLoop post bs).yielded = bs.filterMap fun b => (post b).toOption := by
  induction bs with
  | nil => rfl
  | cons b rest ih =>
    have hrest : ∀ b ∈ rest, post b ≠ Except.error FetchError.jsonDecodeError :=
      fun b hb => hjson b (List.mem_cons_of_mem _ hb)
    cases hpb : post b with
    | ok p => simp [fetchLoop, hpb, ih hrest, List.filterMap_cons, Except.toOption]
    | error e =>
      cases e with
      | httpError =>
        simp [fetchLoop, hpb, ih hrest, List.filterMap_cons, Except.toOption]
      | jsonDecodeError => exact absurd hpb (hjson b (List.mem_cons_self _ _))

theorem fetchLoop_count {P : Type} (post : List String → Except FetchError P)
    (bs : List (List String))
    (hjson : ∀ b ∈ bs, post b ≠ Except.error FetchError.jsonDecodeError) :
    (fetchLoop post bs).yielded.length + (fetchLoop post bs).to_retry.length
      = bs.length := by
  induction bs with
  | nil => rfl
  | cons b rest ih =>
    have hrest : ∀ b ∈ rest, post b ≠ Except.error FetchError.jsonDecodeError :=
      fun b hb => hjson b (List.mem_cons_of_mem _ hb)
    cases hpb : post b with
    | ok p =>
      simp only [fetchLoop, hpb, List.length_cons]
      have hih := ih hrest
      omega
    | error e =>
      cases e with
      | httpError =>
        simp only [fetchLoop, hpb, List.length_cons]
        have hih := ih hrest
        omega
      | jsonDecodeError => exact absurd hpb (hjson b (List.mem_cons_self _ _))

theorem anyEndorsedLoop_ok_true_iff (record : PyRecord) (exports : List String) :
    anyEndorsedLoop record exports = Except.ok true ↔
      ∃ v, firstEndorsed record exports = Option.some v ∧ v.isInt = true := by
  induction exports with
  | nil => simp [anyEndorsedLoop, firstEndorsed]
  | cons e rest ih =>
    by_cases ht : (record.rcvalue e).truthy
    · have hfe : firstEndorsed record (e :: rest) = Option.some (record.rcvalue e) := by
        simp only [firstEndorsed, List.map_cons]
        rw [List.find?_cons_of_pos _ ht]
      by_cases hi : (record.rcvalue e).isInt
      · simp [anyEndorsedLoop, ht, hi, hfe]
      · simp [anyEndorsedLoop, ht, hi, hfe]
    · have hfe : firstEndorsed record (e :: rest) = firstEndorsed record rest := by
        simp only [firstEndorsed, List.map_cons]
        rw [List.find?_cons_of_neg _ (by simpa using ht)]
      simp [anyEndorsedLoop, ht, hfe, ih]

theorem anyEndorsedLoop_ok_false_iff (record : PyRecord) (exports : List String) :
    anyEndorsedLoop record exports = Except.ok false ↔
      firstEndorsed record exports = Option.none := by
  induction exports with
  | nil => simp [anyEndorsedLoop, firstEndorsed]
  | cons e rest ih =>
    by_cases ht : (record.rcvalue e).truthy
    · have hfe : firstEndorsed record (e :: rest) = Option.some (record.rcvalue e) := by
        simp only [firstEndorsed, List.map_cons]
        rw [List.find?_cons_of_pos _ ht]
      by_cases hi : (record.rcvalue e).isInt
      · simp [anyEndorsedLoop, ht, hi, hfe]
      · simp [anyEndorsedLoop, ht, hi, hfe]
    · have hfe : firstEndorsed record (e :: rest) = firstEndorsed record rest := by
        simp only [firstEndorsed, List.map_cons]
        rw [List.find?_cons_of_neg _ (by simpa using ht)]
      simp [anyEndorsedLoop, ht, hfe, ih]

theorem anyEndorsedLoop_error_iff (record : PyRecord) (exports : List String) :
    anyEndorsedLoop record exports = Except.error PyError.dataShapeError ↔
      ∃ v, firstEndorsed record exports = Option.some v ∧ v.isInt = false := by
  induction exports with
  | nil => simp [anyEndorsedLoop, firstEndorsed]
  | cons e rest ih =>
    by_cases ht : (record.rcvalue e).truthy
    · have hfe : firstEndorsed record (e :: rest) = Option.some (record.rcvalue e) := by
        simp only [firstEndorsed, List.map_cons]
        rw [List.find?_cons_of_pos _ ht]
      by_cases hi : (record.rcvalue e).isInt
      · simp [anyEndorsedLoop, ht, hi, hfe]
      · simp [anyEndorsedLoop, ht, hi, hfe]
    · have hfe : firstEndorsed record (e :: rest) = firstEndorsed record rest := by
        simp only [firstEndorsed, List.map_cons]
        rw [List.find?_cons_of_neg _ (by simpa using ht)]
      simp [anyEndorsedLoop, ht, hfe, ih]

/-- If the scan finds a truthy value, that value is the `rcvalue` of one of
the export names. -/
theorem firstEndorsed_some_mem (record : PyRecord) (exports : List String)
    (v : RCValue) (h : firstEndorsed record exports = Option.some v) :
    (∃ var ∈ exports, record.rcvalue var = v) ∧ v.truthy = true := by
  have hmem := List.mem_of_find?_eq_some h
  have htr := List.find?_some h
  refine ⟨?_, htr⟩
  rcases List.mem_map.mp hmem with ⟨var, hvar, hv⟩
  exact ⟨var, hvar, hv⟩

/-- If the scan finds nothing, no export name holds a truthy value. -/
theorem firstEndorsed_none_iff (record : PyRecord) (exports : List String) :
    firstEndorsed record exports = Option.none ↔
      ∀ var ∈ exports, (record.rcvalue var).truthy = false := by
  simp only [firstEndorsed, List.find?_eq_none, List.mem_map]
  constructor
  · intro h var hvar
    have := h (record.rcvalue var) ⟨var, hvar, rfl⟩
    simpa using this
  · rintro h v ⟨var, hvar, rfl⟩
    simp [h var hvar]

/-- Under the hypotheses of the checkbox claims (`_efn` assigned, the field
present in the map), `any_endorsed` is the export-name scan with the state
passed through unchanged. -/
theorem any_endorsed_eq_loop {M : Type} (s : RedcapProjectState M) (record : PyRecord)
    (checkbox : String) (m : List (String × List String)) (exports : List String)
    (hefn : s._efn = Option.some (Option.some m))
    (hcb : dictGet m checkbox = Option.some exports) :
    RedcapProject.any_endorsed s record checkbox =
      (anyEndorsedLoop record exports).map fun b => (b, s) := by
  simp only [RedcapProject.any_endorsed, RedcapProject.cbnames, RedcapProject.efnGet,
    hefn, hcb]
  cases anyEndorsedLoop record exports <;> rfl

/-! ### Claim theorems -/

/-- Claim C1, counterexample.  The claim says `_iter_records(ids)` with chunk
size `k > 0` yields exactly `ceil(len(ids)/k)` batches.  At `ids = ["A","B"]`
and `k = 2` the loop body consumes the whole list and the unconditional
trailing `yield chunk` then emits one extra *empty* batch: the code yields
`[["A","B"], []]` — 2 batches, while `ceil(2/2) = 1`. -/
theorem c1_counterexample :
    iter_records 2 ["A", "B"] = Option.some [["A", "B"], []] ∧
    ¬(([["A", "B"], []] : List (List String)).length
        = (List.length ["A", "B"] + 2 - 1) / 2) :=
  ⟨rfl, by decide⟩

/-- Claim C1, amended.  For every `ids` and chunk size `k ≥ 1`,
`_iter_records` terminates and yields `len(ids) / k + 1` batches (one more
than `ceil` when `k` divides `len(ids)`, because the trailing `yield chunk`
always fires): every batch except the last has length exactly `k`, the last
batch has length `len(ids) % k` (zero when `k` divides `len(ids)`), and the
concatenation of the batches in emission order is exactly `ids` — no
reordering, no duplication, no loss. -/
theorem c1_partition_amended (ids : List String) (k : Int)
    (hk : 1 ≤ k) (hne : ids ≠ []) :
    iter_records k ids = Option.some (chunksNat k.toNat ids) ∧
    (chunksNat k.toNat ids).length = ids.length / k.toNat + 1 ∧
    (chunksNat k.toNat ids).flatten = ids ∧
    (∀ b ∈ (chunksNat k.toNat ids).dropLast, b.length = k.toNat) ∧
    ((chunksNat k.toNat ids).getLastD []).length = ids.length % k.toNat := by
  obtain ⟨front, lastb, heq, hflen, hall, hlast, hjoin⟩ :=
    chunksNat_spec k.toNat (by omega) ids.length ids le_rfl
  refine ⟨iterRecordsAux_eq_chunksNat k hk (ids.length + 1) ids (by omega),
    ?_, ?_, ?_, ?_⟩
  · rw [heq]
    simp [hflen]
  · rw [heq, List.flatten_append]
    simp [hjoin.symm]
  · intro b hb
    rw [heq, List.dropLast_concat] at hb
    exact hall b hb
  · rw [heq, List.getLastD_eq_getLast?, List.getLast?_concat]
    simpa using hlast

/-- Claim C1, witness for the amended theorem at `ids = ["A","B","C"]`,
`k = 2`: two batches of sizes 2 and 1. -/
theorem c1_partition_witness :
    iter_records 2 ["A", "B", "C"] = Option.some (chunksNat (2 : Int).toNat ["A", "B", "C"]) ∧
    (chunksNat (2 : Int).toNat ["A", "B", "C"]).length
      = (List.length ["A", "B", "C"]) / (2 : Int).toNat + 1 ∧
    (chunksNat (2 : Int).toNat ["A", "B", "C"]).flatten = ["A", "B", "C"] ∧
    (∀ b ∈ (chunksNat (2 : Int).toNat ["A", "B", "C"]).dropLast, b.length = (2 : Int).toNat) ∧
    ((chunksNat (2 : Int).toNat ["A", "B", "C"]).getLastD []).length
      = (List.length ["A", "B", "C"]) % (2 : Int).toNat :=
  c1_partition_amended ["A", "B", "C"] 2 (by decide) (by decide)

/-- Claim C9, counterexample.  The claim says constructing a
`RecordsDownloader` with `chunksize <= 0` fails fast with a
`ConfigurationError`, so no instance with such a chunk size is ever produced.
The source constructor performs no validation at all (and no
`ConfigurationError` exists anywhere in the code): `RecordsDownloader.init` is
a total function with no error outcome, and here it produces an instance whose
`chunksize` is `0`. -/
theorem c9_counterexample :
    (RecordsDownloader.init (fun s : String => s) 0
      (Option.some [("fields", "f1")])).chunksize = 0 :=
  rfl

/-- Claim C9, amended.  Construction with `chunksize <= 0` does not fail:
`__init__` stores the chunk size unvalidated, so an instance with a
non-positive chunk size *is* produced — and on such an instance
`_iter_records` never terminates, because the loop guard
`len(chunk) >= self.chunksize` always holds: no amount of fuel makes the
fuel-indexed loop finish. -/
theorem c9_no_validation_amended (V : Type) (san : V → V)
    (params : Option (List (String × V))) (k : Int) (c : List String)
    (fuel : Nat) (hk : k ≤ 0) :
    (RecordsDownloader.init san k params).chunksize = k ∧
    iterRecordsAux k c fuel = Option.none := by
  constructor
  · cases params <;> rfl
  · exact iterRecordsAux_none_of_nonpos k hk fuel c

/-- Claim C9, witness for the amended theorem at `chunksize = 0`. -/
theorem c9_no_validation_witness :
    (RecordsDownloader.init (fun s : String => s) 0 Option.none).chunksize = 0 ∧
    iterRecordsAux 0 ["A"] 5 = Option.none :=
  c9_no_validation_amended String (fun s => s) Option.none 0 ["A"] 5 (by decide)

/-- Claim C10, confirmed.  `RecordsDownloader.__init__` mutates the caller's
`params` dict in place: the loop
`for p, v in params.items(): params[p] = requester.sanitize_param(v)` writes
back into the very dict the caller passed (no copy is taken), so after
construction every value in the caller's own dict is the sanitized form of the
original value, under the same key, in the same order.  `params_after` is the
caller's dict as it stands after the constructor returns; the `Nodup`
hypothesis is the key-uniqueness invariant every Python dict satisfies. -/
theorem c10_params_mutated_in_place (V : Type) (san : V → V) (chunksize : Int)
    (params : List (String × V)) (h : (params.map Prod.fst).Nodup) :
    (RecordsDownloader.init san chunksize (Option.some params)).params_after =
      Option.some (params.map fun pv => (pv.1, san pv.2)) := by
  simp [RecordsDownloader.init, sanitizeItems_eq_map san params h]

/-- Claim C10, witness: sanitizing with `n + 1` over a two-entry dict leaves
the caller's dict holding the sanitized values. -/
theorem c10_params_mutated_witness :
    (RecordsDownloader.init (fun n : Nat => n + 1) 20
      (Option.some [("a", 1), ("b", 2)])).params_after =
      Option.some [("a", 2), ("b", 3)] :=
  c10_params_mutated_in_place Nat (fun n => n + 1) 20 [("a", 1), ("b", 2)] (by decide)

/-- Claim C4, code bug.  The claim (and the spec) say that on a freshly
constructed `RedcapProject` the first read of `metadata` (and of `efn` and
`version`) fetches from the requester, caches, and returns.  But `__init__`
only *annotates* `self._metadata: DataDictionary` (and likewise `_version`,
`_efn`) without assigning anything — a bare annotation creates no attribute —
so the getters' very first step, reading `self._metadata`, raises
`AttributeError` on every fresh instance.  The sentinel test
`if self._metadata is cast(DataDictionary, None)` and the ignored `metadata`
constructor parameter show the intended design is exactly the claimed lazy
cache; the constructor simply fails to initialize the sentinels.  This theorem
evaluates the embedded code at the failing input: all three property reads on
a fresh instance raise `AttributeError` instead of fetching. -/
theorem c4_lazy_cache_bug (M : Type) (url token : String)
    (metadata : Option (DataDictionary M)) (req : Requester M) :
    RedcapProject.metadataGet (RedcapProject.init M url token metadata req)
        = Except.error PyError.attributeError ∧
    RedcapProject.versionGet (RedcapProject.init M url token metadata req)
        = Except.error PyError.attributeError ∧
    RedcapProject.efnGet (RedcapProject.init M url token metadata req)
        = Except.error PyError.attributeError :=
  ⟨rfl, rfl, rfl⟩

/-- Claim C5, counterexample.  The claim says a bare-string `records`
argument is passed through to the payload unchanged.  In the source the
guard is `if records and not isinstance(records, str)`, and there is no
`else` branch: for `records = "A,B"` the condition is false, nothing is added,
and the payload carries *no* `records` key at all — the bare string is
silently dropped, not passed through. -/
theorem c5_counterexample :
    dictGet (RedcapProject.get_records_payload (PyStrOrList.pyStr "A,B")
        PyStrOrList.pyNone) "records" = Option.none ∧
    ¬(dictGet (RedcapProject.get_records_payload (PyStrOrList.pyStr "A,B")
        PyStrOrList.pyNone) "records" = Option.some "A,B") :=
  ⟨rfl, by decide⟩

/-- Claim C5, amended.  In `get_records` the `records` (resp. `fields`)
parameter reaches the outgoing payload only when it is a truthy non-string:
a non-empty collection is joined with commas under its key; a bare string —
and likewise `None` or an empty collection — is omitted from the payload
entirely.  The base entry `content = "record"` is always present. -/
theorem c5_payload_amended (records fields : PyStrOrList) :
    dictGet (RedcapProject.get_records_payload records fields) "content"
        = Option.some "record" ∧
    dictGet (RedcapProject.get_records_payload records fields) "records"
        = (match records with
           | PyStrOrList.pyList (x :: xs) =>
             Option.some (String.intercalate "," (x :: xs))
           | _ => Option.none) ∧
    dictGet (RedcapProject.get_records_payload records fields) "fields"
        = (match fields with
           | PyStrOrList.pyList (x :: xs) =>
             Option.some (String.intercalate "," (x :: xs))
           | _ => Option.none) := by
  cases records with
  | pyNone =>
    cases fields with
    | pyNone => exact ⟨rfl, rfl, rfl⟩
    | pyStr s =>
      refine ⟨?_, ?_, ?_⟩ <;>
        simp [RedcapProject.get_records_payload, PyStrOrList.truthy, PyStrOrList.isStr,
          dictGet, dictSet]
    | pyList xs =>
      cases xs with
      | nil => exact ⟨rfl, rfl, rfl⟩
      | cons x tl =>
        refine ⟨?_, ?_, ?_⟩ <;>
          simp [RedcapProject.get_records_payload, PyStrOrList.truthy, PyStrOrList.isStr,
            PyStrOrList.commaJoin, dictGet, dictSet]
  | pyStr s =>
    cases fields with
    | pyNone =>
      refine ⟨?_, ?_, ?_⟩ <;>
        simp [RedcapProject.get_records_payload, PyStrOrList.truthy, PyStrOrList.isStr,
          dictGet, dictSet]
    | pyStr s' =>
      refine ⟨?_, ?_, ?_⟩ <;>
        simp [RedcapProject.get_records_payload, PyStrOrList.truthy, PyStrOrList.isStr,
          dictGet, dictSet]
    | pyList xs =>
      cases xs with
      | nil =>
        refine ⟨?_, ?_, ?_⟩ <;>
          simp [RedcapProject.get_records_payload, PyStrOrList.truthy, PyStrOrList.isStr,
            dictGet, dictSet]
      | cons x tl =>
        refine ⟨?_, ?_, ?_⟩ <;>
          simp [RedcapProject.get_records_payload, PyStrOrList.truthy, PyStrOrList.isStr,
            PyStrOrList.commaJoin, dictGet, dictSet]
  | pyList xs =>
    cases xs with
    | nil =>
      cases fields with
      | pyNone => exact ⟨rfl, rfl, rfl⟩
      | pyStr s =>
        refine ⟨?_, ?_, ?_⟩ <;>
          simp [RedcapProject.get_records_payload, PyStrOrList.truthy, PyStrOrList.isStr,
            dictGet, dictSet]
      | pyList ys =>
        cases ys with
        | nil => exact ⟨rfl, rfl, rfl⟩
        | cons y tl =>
          refine ⟨?_, ?_, ?_⟩ <;>
            simp [RedcapProject.get_records_payload, PyStrOrList.truthy, PyStrOrList.isStr,
              PyStrOrList.commaJoin, dictGet, dictSet]
    | cons x tl =>
      cases fields with
      | pyNone =>
        refine ⟨?_, ?_, ?_⟩ <;>
          simp [RedcapProject.get_records_payload, PyStrOrList.truthy, PyStrOrList.isStr,
            PyStrOrList.commaJoin, dictGet, dictSet]
      | pyStr s =>
        refine ⟨?_, ?_, ?_⟩ <;>
          simp [RedcapProject.get_records_payload, PyStrOrList.truthy, PyStrOrList.isStr,
            PyStrOrList.commaJoin, dictGet, dictSet]
      | pyList ys =>
        cases ys with
        | nil =>
          refine ⟨?_, ?_, ?_⟩ <;>
            simp [RedcapProject.get_records_payload, PyStrOrList.truthy, PyStrOrList.isStr,
              PyStrOrList.commaJoin, dictGet, dictSet]
        | cons y tl' =>
          refine ⟨?_, ?_, ?_⟩ <;>
            simp [RedcapProject.get_records_payload, PyStrOrList.truthy, PyStrOrList.isStr,
              PyStrOrList.commaJoin, dictGet, dictSet]

/-- Claim C6, confirmed.  The map built by the `efn` setter is exactly: keep
only the descriptors whose `original_field_name` differs from
`export_field_name`, and map each such name to its `export_field_name` values
in input (first-encountered) order; a name all of whose descriptors have
`original_field_name = export_field_name` is absent from the map.  In
particular the claim's checkbox example maps `checkbox_field` to its three
generated names in order. -/
theorem c6_efn_build_map :
    (∀ (value : List FieldDescriptor) (nm : String),
      dictGet (efnBuild value) nm =
        (if nm ∈ (value.filter fun d =>
              d.original_field_name ≠ d.export_field_name).map
              (fun d => d.original_field_name)
         then Option.some
           (((value.filter fun d =>
                d.original_field_name ≠ d.export_field_name).filter
              fun d => d.original_field_name = nm).map
              fun d => d.export_field_name)
         else Option.none)) ∧
    dictGet (efnBuild
      [⟨"checkbox_field", "1", "checkbox_field___1"⟩,
       ⟨"checkbox_field", "2", "checkbox_field___2"⟩,
       ⟨"checkbox_field", "999", "checkbox_field___999"⟩]) "checkbox_field" =
      Option.some ["checkbox_field___1", "checkbox_field___2", "checkbox_field___999"] := by
  constructor
  · intro value nm
    unfold efnBuild
    rw [dictGet_map_self]
    by_cases hmem : nm ∈ (value.filter fun d =>
        d.original_field_name ≠ d.export_field_name).map fun d => d.original_field_name
    · rw [if_pos (List.mem_dedup.mpr hmem), if_pos hmem]
    · rw [if_neg (fun hc => hmem (List.mem_dedup.mp hc)), if_neg hmem]
  · rfl

/-- Claim C7, confirmed.  Building the export-field map is idempotent —
the setter recomputes the map from the descriptor list alone, so setting
twice from the same list leaves exactly the state one set produces — and a
field whose descriptors all satisfy
`original_field_name = export_field_name` never appears as a key. -/
theorem c7_efn_build_idempotent (M : Type) (s : RedcapProjectState M)
    (value : List FieldDescriptor) (nm : String)
    (h : ∀ d ∈ value, d.original_field_name = nm → d.export_field_name = nm) :
    (RedcapProject.efnSet (RedcapProject.efnSet s value) value)._efn =
      (RedcapProject.efnSet s value)._efn ∧
    dictGet (efnBuild value) nm = Option.none := by
  refine ⟨rfl, ?_⟩
  unfold efnBuild
  rw [dictGet_map_self, if_neg ?_]
  simp only [List.mem_dedup, List.mem_map, List.mem_filter, decide_eq_true_eq]
  rintro ⟨d, ⟨hd, hne⟩, horig⟩
  exact hne (horig.trans (h d hd horig).symm)

/-- Claim C7, witness: a field whose single descriptor exports as itself is
absent from the built map, and rebuilding is idempotent on a concrete state. -/
theorem c7_efn_build_witness :
    (RedcapProject.efnSet (RedcapProject.efnSet exampleState plainDescs) plainDescs)._efn =
      (RedcapProject.efnSet exampleState plainDescs)._efn ∧
    dictGet (efnBuild plainDescs) "plain_field" = Option.none :=
  c7_efn_build_idempotent Nat exampleState plainDescs "plain_field" (by decide)

/-- Claim C8, confirmed.  For a record and a checkbox field present in the
export-field map (`_efn` assigned to a map `m`, `m[checkbox] = exports`),
`any_endorsed` scans the export names in order and returns at the first truthy
value: it returns `True` exactly when the first endorsed value is an integer
(hence when some export name holds a truthy integer — conjuncts 4 and 5 state
the claim's iff for the normally-returning runs), returns `False` exactly when
no export-name value is truthy, and fails with the spec's `DataShapeError`
(the `assert isinstance(checked, int)`) exactly when the first endorsed value
is not an integer, the error propagating to the caller.  The final conjunct is
the claim's example: record `(checkbox_field___1 = 0, checkbox_field___2 = 1)`
yields `True`. -/
theorem c8_any_endorsed :
    (∀ (M : Type) (s : RedcapProjectState M) (record : PyRecord) (checkbox : String)
        (m : List (String × List String)) (exports : List String),
      s._efn = Option.some (Option.some m) →
      dictGet m checkbox = Option.some exports →
      ((RedcapProject.any_endorsed s record checkbox = Except.ok (true, s) ↔
          ∃ v, firstEndorsed record exports = Option.some v ∧ v.isInt = true) ∧
       (RedcapProject.any_endorsed s record checkbox = Except.ok (false, s) ↔
          ∀ var ∈ exports, (record.rcvalue var).truthy = false) ∧
       (RedcapProject.any_endorsed s record checkbox = Except.error PyError.dataShapeError ↔
          ∃ v, firstEndorsed record exports = Option.some v ∧ v.isInt = false) ∧
       (RedcapProject.any_endorsed s record checkbox = Except.ok (true, s) →
          ∃ var ∈ exports, (record.rcvalue var).truthy = true ∧
            (record.rcvalue var).isInt = true) ∧
       (RedcapProject.any_endorsed s record checkbox = Except.ok (false, s) →
          ¬∃ var ∈ exports, (record.rcvalue var).truthy = true ∧
            (record.rcvalue var).isInt = true))) ∧
    RedcapProject.any_endorsed cbState cbRecord "checkbox_field" =
      Except.ok (true, cbState) := by
  constructor
  · intro M s record checkbox m exports hefn hcb
    have heq := any_endorsed_eq_loop s record checkbox m exports hefn hcb
    have hmap_ok : ∀ b : Bool,
        RedcapProject.any_endorsed s record checkbox = Except.ok (b, s) ↔
          anyEndorsedLoop record exports = Except.ok b := by
      intro b
      rw [heq]
      cases hl : anyEndorsedLoop record exports with
      | ok b' => simp [Except.map]
      | error e => simp [Except.map]
    have hmap_err :
        RedcapProject.any_endorsed s record checkbox
            = Except.error PyError.dataShapeError ↔
          anyEndorsedLoop record exports = Except.error PyError.dataShapeError := by
      rw [heq]
      cases hl : anyEndorsedLoop record exports with
      | ok b' => simp [Except.map]
      | error e => simp [Except.map]
    refine ⟨?_, ?_, ?_, ?_, ?_⟩
    · rw [hmap_ok true, anyEndorsedLoop_ok_true_iff]
    · rw [hmap_ok false, anyEndorsedLoop_ok_false_iff, firstEndorsed_none_iff]
    · rw [hmap_err, anyEndorsedLoop_error_iff]
    · intro hok
      obtain ⟨v, hv, hint⟩ := (anyEndorsedLoop_ok_true_iff record exports).mp
        ((hmap_ok true).mp hok)
      obtain ⟨⟨var, hvar, hval⟩, htr⟩ := firstEndorsed_some_mem record exports v hv
      exact ⟨var, hvar, by rw [hval]; exact htr, by rw [hval]; exact hint⟩
    · intro hok hex
      obtain ⟨var, hvar, htr, _⟩ := hex
      have hnone := (anyEndorsedLoop_ok_false_iff record exports).mp
        ((hmap_ok false).mp hok)
      have := (firstEndorsed_none_iff record exports).mp hnone var hvar
      rw [htr] at this
      exact absurd this (by simp)
  · rfl

/-- Claim C8, witness: the general theorem instantiated at the claims'
checkbox example (the two hypotheses hold by computation). -/
theorem c8_any_endorsed_witness :
    (RedcapProject.any_endorsed cbState cbRecord "checkbox_field"
          = Except.ok (true, cbState) ↔
        ∃ v, firstEndorsed cbRecord ["checkbox_field___1", "checkbox_field___2"]
            = Option.some v ∧ v.isInt = true) ∧
    (RedcapProject.any_endorsed cbState cbRecord "checkbox_field"
          = Except.ok (false, cbState) ↔
        ∀ var ∈ ["checkbox_field___1", "checkbox_field___2"],
          (cbRecord.rcvalue var).truthy = false) ∧
    (RedcapProject.any_endorsed cbState cbRecord "checkbox_field"
          = Except.error PyError.dataShapeError ↔
        ∃ v, firstEndorsed cbRecord ["checkbox_field___1", "checkbox_field___2"]
            = Option.some v ∧ v.isInt = false) ∧
    (RedcapProject.any_endorsed cbState cbRecord "checkbox_field"
          = Except.ok (true, cbState) →
        ∃ var ∈ ["checkbox_field___1", "checkbox_field___2"],
          (cbRecord.rcvalue var).truthy = true ∧ (cbRecord.rcvalue var).isInt = true) ∧
    (RedcapProject.any_endorsed cbState cbRecord "checkbox_field"
          = Except.ok (false, cbState) →
        ¬∃ var ∈ ["checkbox_field___1", "checkbox_field___2"],
          (cbRecord.rcvalue var).truthy = true ∧ (cbRecord.rcvalue var).isInt = true) :=
  c8_any_endorsed.1 Nat cbState cbRecord "checkbox_field" cbEfnMap
    ["checkbox_field___1", "checkbox_field___2"] rfl rfl

/-- Claim C2, counterexample.  With chunk size 2 and ids `["A","B","C"]` the
batches are `[["A","B"], ["C"]]`; the post for `["C"]` fails with a non-2xx.
The run completes with the failed batch recorded only in the *local*
`to_retry` list: the caller receives the yielded payload `"pAB"` and the
generator's return value is `None` (the body has no `return` statement) — the
failed batches are *not* returned to the caller, falsifying the claim's last
part. -/
theorem c2_counterexample :
    fetch_records postHttpFailC 2 ["A", "B", "C"]
        = Option.some (FetchResult.mk ["pAB"] [["C"]] Option.none Option.none) ∧
    postHttpFailC ["C"] = Except.error FetchError.httpError :=
  ⟨rfl, rfl⟩

/-- Claim C2, amended.  For a positive chunk size, when no batch's response
body is malformed (only non-2xx failures occur), `fetch_records` runs the loop
over exactly the partition's batches, and the accounting the claim states
holds *internally*: every dispatched batch lands in exactly one of the two
outcome sets (its payload is yielded iff its post succeeded, it is appended to
`to_retry` iff its post failed), and
`len(yielded) + len(to_retry) = number of dispatched batches`.  However the
`to_retry` list is a local variable: the generator's return value is `None`,
so the failed batches are *not* returned to the caller. -/
theorem c2_outcome_accounting_amended (P : Type)
    (post : List String → Except FetchError P) (k : Int) (chunk : List String)
    (hk : 1 ≤ k)
    (hjson : ∀ b ∈ chunksNat k.toNat chunk,
      post b ≠ Except.error FetchError.jsonDecodeError) :
    fetch_records post k chunk
        = Option.some (fetchLoop post (chunksNat k.toNat chunk)) ∧
    (fetchLoop post (chunksNat k.toNat chunk)).yielded.length
        + (fetchLoop post (chunksNat k.toNat chunk)).to_retry.length
        = (chunksNat k.toNat chunk).length ∧
    (∀ b ∈ chunksNat k.toNat chunk,
      (b ∈ (fetchLoop post (chunksNat k.toNat chunk)).to_retry ↔
        postFailed (post b) = true)) ∧
    (fetchLoop post (chunksNat k.toNat chunk)).returned = Option.none := by
  refine ⟨?_, fetchLoop_count post _ hjson, ?_, fetchLoop_returned post _⟩
  · simp only [fetch_records, iter_records]
    rw [iterRecordsAux_eq_chunksNat k hk (chunk.length + 1) chunk (by omega)]
    rfl
  · intro b hb
    rw [fetchLoop_to_retry post _ hjson, List.mem_filter]
    simp [hb]

/-- Claim C2, witness: the amended theorem at chunk size 2 over five ids,
with the last batch failing with a non-2xx. -/
theorem c2_outcome_accounting_witness :
    fetch_records postLenFailE 2 ["A", "B", "C", "D", "E"]
        = Option.some (fetchLoop postLenFailE [["A", "B"], ["C", "D"], ["E"]]) ∧
    (fetchLoop postLenFailE [["A", "B"], ["C", "D"], ["E"]]).yielded.length
        + (fetchLoop postLenFailE [["A", "B"], ["C", "D"], ["E"]]).to_retry.length
        = 3 ∧
    (∀ b ∈ [["A", "B"], ["C", "D"], ["E"]],
      (b ∈ (fetchLoop postLenFailE [["A", "B"], ["C", "D"], ["E"]]).to_retry ↔
        postFailed (postLenFailE b) = true)) ∧
    (fetchLoop postLenFailE [["A", "B"], ["C", "D"], ["E"]]).returned
        = Option.none := by
  have hbs : chunksNat (2 : Int).toNat ["A", "B", "C", "D", "E"]
      = [["A", "B"], ["C", "D"], ["E"]] := by
    have h1 := iterRecordsAux_eq_chunksNat 2 (by decide)
      (List.length ["A", "B", "C", "D", "E"] + 1) ["A", "B", "C", "D", "E"] (by decide)
    have h2 : iterRecordsAux 2 ["A", "B", "C", "D", "E"]
        (List.length ["A", "B", "C", "D", "E"] + 1)
        = Option.some [["A", "B"], ["C", "D"], ["E"]] := rfl
    exact Option.some.inj (h1.symm.trans h2)
  have hmain := c2_outcome_accounting_amended Nat postLenFailE 2
    ["A", "B", "C", "D", "E"] (by decide)
    (by rw [hbs]; intro b hb; fin_cases hb <;> simp [postLenFailE])
  rw [hbs] at hmain
  exact hmain

/-- Claim C3, counterexample.  The claim says *any* transport-level failure —
non-2xx or malformed response body — is caught locally, the batch is added to
the failed set, and processing continues.  But the source catches only
`requests.HTTPError`; the error `.json()` raises for a malformed body is not
a subclass of it.  With batches `[["A","B"], ["C","D"], ["E"]]` and a
malformed body on `["C","D"]`: the exception escapes (`raised` is set),
`["C","D"]` is *not* in `to_retry`, and `["E"]` — whose post would have
succeeded (second conjunct) — is never dispatched, its payload missing from
`yielded`.  So the failure propagates to the caller and aborts the remaining
batches. -/
theorem c3_counterexample :
    fetch_records postJsonFailCD 2 ["A", "B", "C", "D", "E"]
        = Option.some (FetchResult.mk ["payload"] []
            (Option.some FetchError.jsonDecodeError) Option.none) ∧
    postJsonFailCD ["E"] = Except.ok "payload" :=
  ⟨rfl, rfl⟩

/-- Claim C3, amended.  A non-2xx failure (`requests.HTTPError`, the only
exception the `except` clause names) on one batch is caught locally, the
batch is appended to the failed list, and processing continues; each batch's
outcome depends only on its own post result — `to_retry` is exactly the
failing batches in order, `yielded` is exactly the successful payloads in
order — so the other batches are unaffected, and no such failure escapes the
generator (`raised` is `none`).  This isolation holds only as long as no
response body is malformed: a JSON-decode failure is not caught (see the
counterexample). -/
theorem c3_failure_isolation_amended (P : Type)
    (post : List String → Except FetchError P) (k : Int) (chunk : List String)
    (hk : 1 ≤ k)
    (hjson : ∀ b ∈ chunksNat k.toNat chunk,
      post b ≠ Except.error FetchError.jsonDecodeError) :
    (fetch_records post k chunk).map FetchResult.raised
        = Option.some Option.none ∧
    (fetchLoop post (chunksNat k.toNat chunk)).to_retry
        = (chunksNat k.toNat chunk).filter (fun b => postFailed (post b)) ∧
    (fetchLoop post (chunksNat k.toNat chunk)).yielded
        = (chunksNat k.toNat chunk).filterMap (fun b => (post b).toOption) := by
  refine ⟨?_, fetchLoop_to_retry post _ hjson, fetchLoop_yielded post _ hjson⟩
  simp only [fetch_records, iter_records]
  rw [iterRecordsAux_eq_chunksNat k hk (chunk.length + 1) chunk (by omega)]
  simp [fetchLoop_raised post _ hjson]

/-- Claim C3, witness: the amended theorem at chunk size 2 over three ids,
the final one-element batch failing with a non-2xx. -/
theorem c3_failure_isolation_witness :
    (fetch_records postLenFailE 2 ["A", "B", "E"]).map FetchResult.raised
        = Option.some Option.none ∧
    (fetchLoop postLenFailE [["A", "B"], ["E"]]).to_retry
        = [["A", "B"], ["E"]].filter (fun b => postFailed (postLenFailE b)) ∧
    (fetchLoop postLenFailE [["A", "B"], ["E"]]).yielded
        = [["A", "B"], ["E"]].filterMap (fun b => (postLenFailE b).toOption) := by
  have hbs : chunksNat (2 : Int).toNat ["A", "B", "E"] = [["A", "B"], ["E"]] := by
    have h1 := iterRecordsAux_eq_chunksNat 2 (by decide)
      (List.length ["A", "B", "E"] + 1) ["A", "B", "E"] (by decide)
    have h2 : iterRecordsAux 2 ["A", "B", "E"] (List.length ["A", "B", "E"] + 1)
        = Option.some [["A", "B"], ["E"]] := rfl
    exact Option.some.inj (h1.symm.trans h2)
  have hmain := c3_failure_isolation_amended Nat postLenFailE 2 ["A", "B", "E"]
    (by decide)
    (by rw [hbs]; intro b hb; fin_cases hb <;> simp [postLenFailE])
  rw [hbs] at hmain
  exact hmain
